import Mathlib

set_option linter.unusedVariables false

/-!
Verification of the `/adapt` admin endpoint (src/adapt.go).

The file embeds, as executable Lean definitions:
* the parts of Go's standard `mime.ParseMediaType` that the endpoint
  depends on (namespace `GoMime`), and
* the two functions of src/adapt.go, `adaptByContentType` and
  `handleAdapt` (namespace `CaddyAdapt`).

External collaborators of the file under verification — the process-wide
config-adapter registry (`caddyconfig.GetAdapter`), the individual
adapters, and `json.Marshal` for warnings — are parameters of the
embedded functions, since their behaviour is outside this repository.
Byte slices are modelled as `List UInt8`, with `Option` distinguishing a
`nil` Go slice (`none`) from a non-nil one (`some bytes`), so that
"returns nil on error" is a provable statement rather than a typing
artifact.
-/

namespace GoMime

/-- The `tspecials` set of Go `mime.isTSpecial`. -/
def tspecials : List Char := "()<>@,;:\\\"/[]?=".toList

/-- Go `mime.isTSpecial`. -/
def isTSpecial (c : Char) : Bool := tspecials.contains c

/-- Go `mime.isTokenChar`: `r > 0x20 && r < 0x7f && !isTSpecial(r)`. -/
def isTokenChar (c : Char) : Bool :=
  decide (0x20 < c.toNat) && decide (c.toNat < 0x7f) && !isTSpecial c

/-- Go `unicode.IsSpace` on the Latin-1 range (TAB, LF, VT, FF, CR, SP,
NEL, NBSP).  `mime.ParseMediaType` only uses it to trim around tokens;
white space code points above U+00FF are not modelled. -/
def goIsSpace (c : Char) : Bool :=
  c.toNat == 0x09 || c.toNat == 0x0a || c.toNat == 0x0b || c.toNat == 0x0c ||
  c.toNat == 0x0d || c.toNat == 0x20 || c.toNat == 0x85 || c.toNat == 0xa0

/-- Go `unicode.ToLower` on the ASCII range.  Media types that pass
`checkMediaTypeDisposition` consist of token characters, which are all
ASCII, so the non-ASCII case mappings are irrelevant here. -/
def goToLower (c : Char) : Char :=
  if 65 ≤ c.toNat ∧ c.toNat ≤ 90 then Char.ofNat (c.toNat + 32) else c

/-- Go `strings.ToLower` on a character list. -/
def lowerStr (l : List Char) : List Char := l.map goToLower

/-- Go `strings.TrimSpace` (with `goIsSpace` as the space predicate). -/
def trimSpaceL (l : List Char) : List Char :=
  ((l.dropWhile goIsSpace).reverse.dropWhile goIsSpace).reverse

/-- Go `mime.consumeToken`: the longest prefix of token characters,
paired with the rest. -/
def consumeToken (v : List Char) : List Char × List Char :=
  (v.takeWhile isTokenChar, v.dropWhile isTokenChar)

/-- Go `mime.checkMediaTypeDisposition`: `none` when `s` is a valid
`token` or `token "/" token`, otherwise the error message. -/
def checkMediaTypeDisposition (s : List Char) : Option String :=
  let typ := (consumeToken s).1
  let rest := (consumeToken s).2
  if typ = [] then some "mime: no media type"
  else if rest = [] then none
  else if rest.head? ≠ some '/' then some "mime: expected slash after first token"
  else
    let subtype := (consumeToken rest.tail).1
    let rest2 := (consumeToken rest.tail).2
    if subtype = [] then some "mime: expected token after slash"
    else if rest2 ≠ [] then some "mime: unexpected content after media subtype"
    else none

/-- The quoted-string loop of Go `mime.consumeValue` (the `for` loop over
`v[1:]`).  `orig` is the whole input, returned on failure; `acc` holds
the characters written to the builder so far, in reverse. -/
def cvQuoted (orig : List Char) : List Char → List Char → List Char × List Char
  | acc, [] => ([], orig)
  | acc, c :: rest =>
    if c = '"' then (acc.reverse, rest)
    else
      match rest with
      | c2 :: rest2 =>
        if c = '\\' && isTSpecial c2 then cvQuoted orig (c2 :: acc) rest2
        else if c = '\r' || c = '\n' then ([], orig)
        else cvQuoted orig (c :: acc) (c2 :: rest2)
      | [] =>
        if c = '\r' || c = '\n' then ([], orig)
        else cvQuoted orig (c :: acc) []

/-- Go `mime.consumeValue`: a token, or a quoted string. -/
def consumeValue (v : List Char) : List Char × List Char :=
  match v with
  | [] => ([], [])
  | c :: rest => if c ≠ '"' then consumeToken v else cvQuoted v [] rest

/-- Go `mime.consumeMediaParam`: consumes `";" token "=" value` with
optional surrounding white space; returns `([], [], v)` on failure. -/
def consumeMediaParam (v : List Char) : List Char × List Char × List Char :=
  let r1 := v.dropWhile goIsSpace
  if r1.head? ≠ some ';' then ([], [], v)
  else
    let r2 := r1.tail.dropWhile goIsSpace
    let param := lowerStr (consumeToken r2).1
    let r3 := (consumeToken r2).2
    if param = [] then ([], [], v)
    else
      let r4 := r3.dropWhile goIsSpace
      if r4.head? ≠ some '=' then ([], [], v)
      else
        let r5 := r4.tail.dropWhile goIsSpace
        let value := (consumeValue r5).1
        let r6 := (consumeValue r5).2
        if value = [] ∧ r6 = r5 then ([], [], v)
        else (param, value, r6)

/-- Association-list lookup, modelling a read of a Go `map` keyed by
strings (character lists). -/
def alookup {α : Type} : List (List Char × α) → List Char → Option α
  | [], _ => none
  | (k, a) :: rest, key => if k = key then some a else alookup rest key

/-- Association-list update, modelling a write to a Go `map`. -/
def aset {α : Type} : List (List Char × α) → List Char → α → List (List Char × α)
  | [], key, a => [(key, a)]
  | (k, b) :: rest, key, a =>
    if k = key then (k, a) :: rest else (k, b) :: aset rest key a

/-- Go `strings.Cut(key, "*")` as used by `ParseMediaType`: `some base`
(the part before the first `*`) when `key` contains `*`, else `none`. -/
def cutStar (key : List Char) : Option (List Char) :=
  if key.contains '*' then some (key.takeWhile (fun c => c ≠ '*')) else none

/-- The two maps `ParseMediaType` fills while scanning parameters:
`params`, and the lazily created `continuation` map for keys containing
`*`.  Only the duplicate-parameter check depends on them (the caller in
src/adapt.go discards the parameters). -/
structure ParamState where
  params : List (List Char × List Char)
  contMaps : List (List Char × List (List Char × List Char))

/-- One Go `map` cell update plus the duplicate check of
`ParseMediaType`: `pmap[key]` exists with a different value ⇒ error. -/
def paramInsert (pmap : List (List Char × List Char)) (key value : List Char) :
    Except String (List (List Char × List Char)) :=
  match alookup pmap key with
  | some old => if old ≠ value then .error "mime: duplicate parameter name"
                else .ok (aset pmap key value)
  | none => .ok (aset pmap key value)

/-- The parameter loop of Go `mime.ParseMediaType` (`for len(v) > 0`).
`fuel` bounds the recursion; it is called with `v.length + 1`, and each
iteration consumes at least one character of `v`
(`consumeMediaParam_length_lt`), so the `0` case is never reached
(`paramLoop_fuel_eq`).  The RFC 2231 stitching that follows the loop in
Go is not modelled: it cannot fail, and the caller discards the
parameter map. -/
def paramLoop : Nat → ParamState → List Char → Except String Unit
  | 0, _, _ => .ok ()
  | fuel + 1, st, v =>
    if v = [] then .ok ()
    else
      let v1 := v.dropWhile goIsSpace
      if v1 = [] then .ok ()
      else
        let key := (consumeMediaParam v1).1
        let value := (consumeMediaParam v1).2.1
        let rest := (consumeMediaParam v1).2.2
        if key = [] then
          if trimSpaceL rest = [';'] then .ok ()
          else .error "mime: invalid media parameter"
        else
          match cutStar key with
          | none =>
            match paramInsert st.params key value with
            | .error e => .error e
            | .ok params2 => paramLoop fuel ⟨params2, st.contMaps⟩ rest
          | some baseName =>
            let pmap := (alookup st.contMaps baseName).getD []
            match paramInsert pmap key value with
            | .error e => .error e
            | .ok pmap2 => paramLoop fuel ⟨st.params, aset st.contMaps baseName pmap2⟩ rest

/-- Go `mime.ParseMediaType`, returning the parsed media type (already
lower-cased and trimmed) or the error message.  Go additionally returns
the parameter map, which the caller in src/adapt.go discards, so it is
dropped here; an error from the parameter section is still reported,
exactly as in Go. -/
def ParseMediaType (v : String) : Except String (List Char) :=
  let vl := v.toList
  let base := vl.takeWhile (fun c => c ≠ ';')
  let mediatype := trimSpaceL (lowerStr base)
  match checkMediaTypeDisposition mediatype with
  | some e => .error e
  | none =>
    let restv := vl.dropWhile (fun c => c ≠ ';')
    match paramLoop (restv.length + 1) ⟨[], []⟩ restv with
    | .error e => .error e
    | .ok _ => .ok mediatype

end GoMime

namespace CaddyAdapt

/-- A Go byte slice's contents. -/
abbrev Bytes := List UInt8

/-- `caddyconfig.Warning` (File, Line, Directive, Message). -/
structure Warning where
  file : String
  line : Int
  directive : String
  message : String
deriving DecidableEq, Repr

/-- A config adapter from the external registry.  `adapt` models the Go
call `cfgAdapter.Adapt(body, nil)` (src/adapt.go always passes `nil`
options): it returns the output slice, the warning slice and the error,
each `none` when the Go value is `nil`. -/
structure Adapter where
  adapt : Bytes → Option Bytes × Option (List Warning) × Option String

/-- An error returned by `adaptByContentType`: either a `caddy.APIError`
with an attached HTTP status, or a plain `fmt.Errorf` error carrying
only a message. -/
inductive AdaptError where
  | api (httpStatus : Nat) (msg : String)
  | plain (msg : String)
deriving DecidableEq, Repr

/-- The message of an `AdaptError`, as Go's `Error()` would render it
(`caddy.APIError.Error()` returns the wrapped error's message). -/
def AdaptError.message : AdaptError → String
  | .api _ m => m
  | .plain m => m

/-- The triple returned by `adaptByContentType`: `([]byte, []Warning,
error)`, with `none` for a `nil` slice or a `nil` error. -/
structure AdaptOutcome where
  result : Option Bytes
  warnings : Option (List Warning)
  err : Option AdaptError
deriving DecidableEq, Repr

/-- A single-quote character as a string (used by the
`unrecognized config adapter '%s'` message). -/
def squote : String := String.singleton (Char.ofNat 39)

/-- Go `strings.HasSuffix`:
`len(s) >= len(suffix) && s[len(s)-len(suffix):] == suffix`. -/
def hasSuffixL (s suffix : List Char) : Bool :=
  decide (suffix.length ≤ s.length) && decide (s.drop (s.length - suffix.length) = suffix)

/-- Go `strings.Index(ct, "/")` for the one-character needle `/`:
the index of the first `/`, or `none` for Go's `-1`.  The media types it
is applied to have passed `checkMediaTypeDisposition`, hence are pure
ASCII, so character indices and Go's byte indices agree. -/
def indexOfSlash : List Char → Option Nat
  | [] => none
  | c :: rest => if c = '/' then some 0 else (indexOfSlash rest).map (· + 1)

/-- src/adapt.go `adaptByContentType`, with the adapter registry
(`caddyconfig.GetAdapter`) passed in as `getAdapter`. -/
def adaptByContentType (getAdapter : String → Option Adapter)
    (contentType : String) (body : Bytes) : AdaptOutcome :=
  -- assume JSON as the default
  if contentType = "" then ⟨some body, none, none⟩
  else
    match GoMime.ParseMediaType contentType with
    | .error e => ⟨none, none, some (.api 400 ("invalid Content-Type: " ++ e))⟩
    | .ok ct =>
      -- if already JSON, no need to adapt
      if hasSuffixL ct "/json".toList then ⟨some body, none, none⟩
      else
        -- adapter name should be suffix of MIME type
        match indexOfSlash ct with
        | none => ⟨none, none, some (.plain "malformed Content-Type")⟩
        | some slashIdx =>
          let adapterName := String.mk (ct.drop (slashIdx + 1))
          match getAdapter adapterName with
          | none =>
            ⟨none, none,
             some (.plain ("unrecognized config adapter " ++ squote ++ adapterName ++ squote))⟩
          | some cfgAdapter =>
            match cfgAdapter.adapt body with
            | (_, _, some e) =>
              ⟨none, none,
               some (.plain ("adapting config using " ++ adapterName ++ " adapter: " ++ e))⟩
            | (result, warnings, none) => ⟨result, warnings, none⟩

/-- The observable inputs of `handleAdapt`: the request method, the
`Content-Type` header (`""` when absent, as `r.Header.Get` yields), and
the outcome of reading the request body (`io.Copy` may fail). -/
structure Request where
  method : String
  contentTypeHeader : String
  bodyRead : Except String Bytes

/-- The observable outcome of `handleAdapt`: either the returned
`caddy.APIError` (status and message), or the written response —
the `Content-Type` header added, the bytes passed to `w.Write` (`none`
for a `nil` slice), and the message logged by the warning-serialization
branch, if any. -/
inductive HandlerResult where
  | failure (status : Nat) (msg : String)
  | success (contentTypeHdr : String) (written : Option Bytes) (loggedErr : Option String)
deriving DecidableEq, Repr

/-- src/adapt.go `handleAdapt`, with the adapter registry and
`json.Marshal` on warning slices passed in as parameters.  The pooled
buffer is a performance device with no observable effect on a single
request, so the body is just `r.bodyRead`'s result. -/
def handleAdapt (getAdapter : String → Option Adapter)
    (marshalWarnings : List Warning → Except String Bytes)
    (r : Request) : HandlerResult :=
  if r.method ≠ "POST" then .failure 405 "method not allowed"
  else
    match r.bodyRead with
    | .error e => .failure 400 ("reading request body: " ++ e)
    | .ok body =>
      -- if the config is formatted other than Caddy's native
      -- JSON, we need to adapt it before loading it
      if r.contentTypeHeader ≠ "" then
        let o := adaptByContentType getAdapter r.contentTypeHeader body
        match o.err with
        | some e => .failure 400 e.message
        | none =>
          let logged :=
            match o.warnings with
            | some ws =>
              if 0 < ws.length then
                match marshalWarnings ws with
                | .error me => some me
                | .ok _ => none
              else none
            | none => none
          .success "application/json" o.result logged
      else .success "application/json" (some body) none

/-! ### Supporting lemmas -/

/-- `dropWhile` never lengthens a list. -/
theorem length_dropWhile_le (p : Char → Bool) (l : List Char) :
    (l.dropWhile p).length ≤ l.length := by
  induction l with
  | nil => simp
  | cons c rest ih =>
    rw [List.dropWhile]
    cases p c with
    | true => exact Nat.le_succ_of_le ih
    | false => exact Nat.le_refl _

/-- The rest returned by the quoted-string scanner is never longer than
the original input: it is either `orig` itself or a suffix of the part
scanned so far. -/
theorem cvQuoted_snd_length (orig : List Char) :
    ∀ (n : Nat) (l acc : List Char), l.length ≤ n → l.length ≤ orig.length →
      (GoMime.cvQuoted orig acc l).2.length ≤ orig.length := by
  intro n
  induction n with
  | zero =>
    intro l acc h0 h1
    match l with
    | [] => exact Nat.le_refl _
    | c :: rest => simp at h0
  | succ n ih =>
    intro l acc h0 h1
    match l with
    | [] => exact Nat.le_refl _
    | c :: rest =>
      rw [GoMime.cvQuoted.eq_def]
      dsimp only
      by_cases hq : c = '"'
      · rw [if_pos hq]
        simp only [List.length_cons] at h1
        dsimp only
        omega
      · rw [if_neg hq]
        match rest with
        | c2 :: rest2 =>
          dsimp only
          by_cases he : (c = '\\' && GoMime.isTSpecial c2) = true
          · rw [if_pos he]
            refine ih rest2 (c2 :: acc) ?_ ?_ <;>
              (simp only [List.length_cons] at h0 h1; omega)
          · rw [if_neg he]
            by_cases hcr : (c = '\r' || c = '\n') = true
            · rw [if_pos hcr]
            · rw [if_neg hcr]
              refine ih (c2 :: rest2) (c :: acc) ?_ ?_ <;>
                (simp only [List.length_cons] at h0 h1 ⊢; omega)
        | [] =>
          dsimp only
          by_cases hcr : (c = '\r' || c = '\n') = true
          · rw [if_pos hcr]
          · rw [if_neg hcr]
            refine ih [] (c :: acc) ?_ ?_ <;> simp

/-- `consumeValue` returns a rest no longer than its input. -/
theorem consumeValue_snd_length (v : List Char) :
    (GoMime.consumeValue v).2.length ≤ v.length := by
  match v with
  | [] => exact Nat.le_refl _
  | c :: rest =>
    rw [GoMime.consumeValue]
    by_cases h : c ≠ '"'
    · rw [if_pos h]
      exact length_dropWhile_le _ _
    · rw [if_neg h]
      exact cvQuoted_snd_length (c :: rest) rest.length rest [] (Nat.le_refl _)
        (Nat.le_succ_of_le (Nat.le_refl _))

/-- When `consumeMediaParam` succeeds (non-empty key), it has consumed
at least the `;`, the parameter token and the `=`, so the returned rest
is strictly shorter than the input. -/
theorem consumeMediaParam_length_lt (v : List Char) :
    (GoMime.consumeMediaParam v).1 ≠ [] →
    (GoMime.consumeMediaParam v).2.2.length < v.length := by
  unfold GoMime.consumeMediaParam
  dsimp only
  split
  · intro hk
    exact absurd rfl hk
  · next hc1 =>
    split
    · intro hk
      exact absurd rfl hk
    · next hc2 =>
      split
      · intro hk
        exact absurd rfl hk
      · next hc3 =>
        split
        · intro hk
          exact absurd rfl hk
        · next hc4 =>
          intro hk
          set r1 := List.dropWhile GoMime.goIsSpace v with hR1
          set r2 := List.dropWhile GoMime.goIsSpace r1.tail with hR2
          set r3 := (GoMime.consumeToken r2).2 with hR3
          set r4 := List.dropWhile GoMime.goIsSpace r3 with hR4
          set r5 := List.dropWhile GoMime.goIsSpace r4.tail with hR5
          set r6 := (GoMime.consumeValue r5).2 with hR6
          have n1 : r1 ≠ [] := by
            intro h0
            rw [not_not] at hc1
            rw [h0] at hc1
            simp at hc1
          have n4 : r4 ≠ [] := by
            intro h0
            rw [not_not] at hc3
            rw [h0] at hc3
            simp at hc3
          have e1 : r1.length ≤ v.length := by rw [hR1]; exact length_dropWhile_le _ _
          have e2 : r2.length ≤ r1.tail.length := by rw [hR2]; exact length_dropWhile_le _ _
          have e3 : r3.length ≤ r2.length := by rw [hR3]; exact length_dropWhile_le _ _
          have e4 : r4.length ≤ r3.length := by rw [hR4]; exact length_dropWhile_le _ _
          have e5 : r5.length ≤ r4.tail.length := by rw [hR5]; exact length_dropWhile_le _ _
          have e6 : r6.length ≤ r5.length := by rw [hR6]; exact consumeValue_snd_length _
          have t1 : r1.tail.length = r1.length - 1 := List.length_tail _
          have t4 : r4.tail.length = r4.length - 1 := List.length_tail _
          have p1 : 0 < r1.length := List.length_pos.mpr n1
          have p4 : 0 < r4.length := List.length_pos.mpr n4
          omega

/-- The fuel bound of `paramLoop` is irrelevant as long as it exceeds
the input length: together with `consumeMediaParam_length_lt` this shows
the `fuel = 0` branch is unreachable at `paramLoop (v.length + 1)`. -/
theorem paramLoop_fuel_eq (f1 : Nat) :
    ∀ (f2 : Nat) (st : GoMime.ParamState) (v : List Char),
      v.length < f1 → v.length < f2 →
      GoMime.paramLoop f1 st v = GoMime.paramLoop f2 st v := by
  induction f1 with
  | zero => intro f2 st v h1 h2; exact absurd h1 (Nat.not_lt_zero _)
  | succ n ih =>
    intro f2 st v h1 h2
    match f2 with
    | 0 => exact absurd h2 (Nat.not_lt_zero _)
    | m + 1 =>
      rw [GoMime.paramLoop, GoMime.paramLoop]
      by_cases hv : v = []
      · simp [hv]
      · rw [if_neg hv, if_neg hv]
        dsimp only
        by_cases hv1 : v.dropWhile GoMime.goIsSpace = []
        · rw [if_pos hv1, if_pos hv1]
        · rw [if_neg hv1, if_neg hv1]
          by_cases hkey : (GoMime.consumeMediaParam (v.dropWhile GoMime.goIsSpace)).1 = []
          · rw [if_pos hkey, if_pos hkey]
          · rw [if_neg hkey, if_neg hkey]
            have hrest := consumeMediaParam_length_lt (v.dropWhile GoMime.goIsSpace) hkey
            have hvle := length_dropWhile_le GoMime.goIsSpace v
            have hvpos : 0 < v.length := List.length_pos.mpr hv
            have hn : (GoMime.consumeMediaParam (v.dropWhile GoMime.goIsSpace)).2.2.length < n := by
              omega
            have hm : (GoMime.consumeMediaParam (v.dropWhile GoMime.goIsSpace)).2.2.length < m := by
              omega
            cases hcs : GoMime.cutStar (GoMime.consumeMediaParam (v.dropWhile GoMime.goIsSpace)).1 with
            | none =>
              cases hpi : GoMime.paramInsert st.params
                  (GoMime.consumeMediaParam (v.dropWhile GoMime.goIsSpace)).1
                  (GoMime.consumeMediaParam (v.dropWhile GoMime.goIsSpace)).2.1 with
              | error e => simp [hpi]
              | ok p2 => simp only [hpi]; exact ih m _ _ hn hm
            | some b =>
              cases hpi : GoMime.paramInsert
                  ((GoMime.alookup st.contMaps b).getD [])
                  (GoMime.consumeMediaParam (v.dropWhile GoMime.goIsSpace)).1
                  (GoMime.consumeMediaParam (v.dropWhile GoMime.goIsSpace)).2.1 with
              | error e => simp [hpi]
              | ok p2 => simp only [hpi]; exact ih m _ _ hn hm

/-- A successfully parsed content type is not the empty string (the
empty string fails `checkMediaTypeDisposition` with "no media type"). -/
theorem parse_ok_ne_empty {ct : String} {mt : List Char}
    (h : GoMime.ParseMediaType ct = .ok mt) : ct ≠ "" := by
  intro hct
  subst hct
  have h0 : GoMime.ParseMediaType "" = .error "mime: no media type" := rfl
  rw [h0] at h
  exact Except.noConfusion h

/-- A media type with the suffix `/json` contains a slash. -/
theorem slash_mem_of_hasSuffix {mt : List Char}
    (h : hasSuffixL mt "/json".toList = true) : '/' ∈ mt := by
  unfold hasSuffixL at h
  rw [Bool.and_eq_true, decide_eq_true_eq, decide_eq_true_eq] at h
  have hmem : '/' ∈ mt.drop (mt.length - "/json".toList.length) := by
    rw [h.2]
    decide
  exact List.drop_subset _ mt hmem

/-- `strings.Index(·, "/")` finds nothing in a slash-free string. -/
theorem indexOfSlash_eq_none {mt : List Char} (h : '/' ∉ mt) :
    indexOfSlash mt = none := by
  induction mt with
  | nil => rfl
  | cons c rest ih =>
    rw [List.mem_cons, not_or] at h
    have hc : ¬ c = '/' := fun hc => h.1 hc.symm
    simp [indexOfSlash, hc, ih h.2]

/-- A one-entry adapter registry, for concrete witnesses. -/
def yamlOnly (a : Adapter) : String → Option Adapter :=
  fun n => if n = "yaml" then some a else none

/-! ### Claims -/

/-- C1, counterexample: `application/vnd.api+json` has a subtype ending
in `json`, but the code tests `strings.HasSuffix(ct, "/json")`, which is
false for it; the media type is instead treated as naming the adapter
`vnd.api+json`, and with that adapter absent the call errors rather than
passing the body through. -/
theorem vnd_api_json_not_passthrough :
    adaptByContentType (fun _ => none) "application/vnd.api+json" [] =
      ⟨none, none,
       some (.plain ("unrecognized config adapter " ++ squote ++ "vnd.api+json" ++ squote))⟩ ∧
    adaptByContentType (fun _ => none) "application/vnd.api+json" [] ≠
      ⟨some [], none, none⟩ := by
  exact ⟨by decide, by decide⟩

/-- C1 (amended): for every body and every content type whose parsed
media type ends with `/json` — i.e. whose subtype is exactly `json` —
`adaptByContentType` returns the body unchanged with no warnings and no
error. -/
theorem json_suffix_passthrough (g : String → Option Adapter) (ct : String)
    (body : Bytes) (mt : List Char)
    (hp : GoMime.ParseMediaType ct = .ok mt)
    (hs : hasSuffixL mt "/json".toList = true) :
    adaptByContentType g ct body = ⟨some body, none, none⟩ := by
  have hne : ct ≠ "" := parse_ok_ne_empty hp
  have hs2 : hasSuffixL mt ['/', 'j', 's', 'o', 'n'] = true := hs
  unfold adaptByContentType
  rw [if_neg hne, hp]
  simp [hs2]

/-- C1 witness. -/
theorem json_suffix_passthrough_w :
    adaptByContentType (fun _ => none) "application/json" [] = ⟨some [], none, none⟩ :=
  json_suffix_passthrough (fun _ => none) "application/json" [] "application/json".toList
    rfl (by decide)

/-- C2, counterexample to the parenthetical "every sibling error path
attaches status 400": the unrecognized-adapter path is a plain
`fmt.Errorf` with no attached HTTP status, just like the no-slash path
(only the MIME-parse-failure path builds a `caddy.APIError` with status
400 inside `adaptByContentType`). -/
theorem sibling_error_without_status :
    adaptByContentType (fun _ => none) "text/xml" [] =
      ⟨none, none,
       some (.plain ("unrecognized config adapter " ++ squote ++ "xml" ++ squote))⟩ := by
  decide

/-- C2 (amended): for every body, if the content type parses but the
parsed media type contains no `/`, `adaptByContentType` fails with the
generic plain error "malformed Content-Type", carrying no attached HTTP
status. -/
theorem no_slash_malformed_plain (g : String → Option Adapter) (ct : String)
    (body : Bytes) (mt : List Char)
    (hp : GoMime.ParseMediaType ct = .ok mt)
    (hns : '/' ∉ mt) :
    adaptByContentType g ct body = ⟨none, none, some (.plain "malformed Content-Type")⟩ := by
  have hne : ct ≠ "" := parse_ok_ne_empty hp
  have hsuf : hasSuffixL mt "/json".toList = false := by
    cases hsuf : hasSuffixL mt "/json".toList with
    | false => rfl
    | true => exact absurd (slash_mem_of_hasSuffix hsuf) hns
  have hidx : indexOfSlash mt = none := indexOfSlash_eq_none hns
  have hsuf2 : hasSuffixL mt ['/', 'j', 's', 'o', 'n'] = false := hsuf
  unfold adaptByContentType
  rw [if_neg hne, hp]
  simp [hsuf2, hidx]

/-- C2 witness. -/
theorem no_slash_malformed_plain_w :
    adaptByContentType (fun _ => none) "json" [] =
      ⟨none, none, some (.plain "malformed Content-Type")⟩ :=
  no_slash_malformed_plain (fun _ => none) "json" [] "json".toList rfl (by decide)

/-- C3: for every body and well-formed non-JSON content type whose
extracted adapter name is bound in the registry, a successful adapter
run makes `adaptByContentType` return exactly the adapter's output
bytes and exactly its warning list, unmodified, with no error. -/
theorem registered_adapter_output_passthrough (g : String → Option Adapter)
    (ct : String) (body : Bytes) (mt : List Char) (i : Nat) (a : Adapter)
    (out : Option Bytes) (ws : Option (List Warning))
    (hp : GoMime.ParseMediaType ct = .ok mt)
    (hjs : hasSuffixL mt "/json".toList = false)
    (hi : indexOfSlash mt = some i)
    (ha : g (String.mk (mt.drop (i + 1))) = some a)
    (hr : a.adapt body = (out, ws, none)) :
    adaptByContentType g ct body = ⟨out, ws, none⟩ := by
  have hne : ct ≠ "" := parse_ok_ne_empty hp
  have hjs2 : hasSuffixL mt ['/', 'j', 's', 'o', 'n'] = false := hjs
  unfold adaptByContentType
  rw [if_neg hne, hp]
  simp [hjs2, hi, ha, hr]

/-- C3 witness. -/
theorem registered_adapter_output_passthrough_w :
    adaptByContentType (yamlOnly ⟨fun b => (some (b ++ [1]), some [⟨"", 0, "", "warn"⟩], none)⟩)
      "application/yaml" [7] = ⟨some [7, 1], some [⟨"", 0, "", "warn"⟩], none⟩ :=
  registered_adapter_output_passthrough
    (yamlOnly ⟨fun b => (some (b ++ [1]), some [⟨"", 0, "", "warn"⟩], none)⟩)
    "application/yaml" [7] "application/yaml".toList 11
    ⟨fun b => (some (b ++ [1]), some [⟨"", 0, "", "warn"⟩], none)⟩
    (some [7, 1]) (some [⟨"", 0, "", "warn"⟩])
    rfl (by decide) (by decide) rfl rfl

/-- C4: for every body and well-formed non-JSON content type whose
extracted adapter name is absent from the registry, `adaptByContentType`
fails with the message `unrecognized config adapter '<name>'`. -/
theorem unknown_adapter_error (g : String → Option Adapter)
    (ct : String) (body : Bytes) (mt : List Char) (i : Nat)
    (hp : GoMime.ParseMediaType ct = .ok mt)
    (hjs : hasSuffixL mt "/json".toList = false)
    (hi : indexOfSlash mt = some i)
    (ha : g (String.mk (mt.drop (i + 1))) = none) :
    adaptByContentType g ct body =
      ⟨none, none,
       some (.plain ("unrecognized config adapter " ++ squote ++
         String.mk (mt.drop (i + 1)) ++ squote))⟩ := by
  have hne : ct ≠ "" := parse_ok_ne_empty hp
  have hjs2 : hasSuffixL mt ['/', 'j', 's', 'o', 'n'] = false := hjs
  unfold adaptByContentType
  rw [if_neg hne, hp]
  simp [hjs2, hi, ha]

/-- C4 witness. -/
theorem unknown_adapter_error_w :
    adaptByContentType (fun _ => none) "application/toml" [] =
      ⟨none, none,
       some (.plain ("unrecognized config adapter " ++ squote ++ "toml" ++ squote))⟩ :=
  unknown_adapter_error (fun _ => none) "application/toml" [] "application/toml".toList 11
    rfl (by decide) (by decide) rfl

/-- C5: for every registry and body, the empty content type is a
pass-through: the body is returned unchanged, with no warnings and no
error. -/
theorem empty_content_type_passthrough (g : String → Option Adapter) (body : Bytes) :
    adaptByContentType g "" body = ⟨some body, none, none⟩ := rfl

/-- C6: when the named adapter is registered but its invocation fails,
`adaptByContentType` fails with the adapter name and the underlying
error embedded in the message, and `handleAdapt` surfaces that message
with HTTP status 400. -/
theorem adapter_failure_wrapped_400 (g : String → Option Adapter)
    (marshal : List Warning → Except String Bytes)
    (ct : String) (body : Bytes) (mt : List Char) (i : Nat) (a : Adapter)
    (res : Option Bytes) (ws : Option (List Warning)) (e : String)
    (hp : GoMime.ParseMediaType ct = .ok mt)
    (hjs : hasSuffixL mt "/json".toList = false)
    (hi : indexOfSlash mt = some i)
    (ha : g (String.mk (mt.drop (i + 1))) = some a)
    (hr : a.adapt body = (res, ws, some e)) :
    adaptByContentType g ct body =
      ⟨none, none,
       some (.plain ("adapting config using " ++ String.mk (mt.drop (i + 1)) ++
         " adapter: " ++ e))⟩ ∧
    handleAdapt g marshal ⟨"POST", ct, .ok body⟩ =
      .failure 400 ("adapting config using " ++ String.mk (mt.drop (i + 1)) ++
        " adapter: " ++ e) := by
  have hne : ct ≠ "" := parse_ok_ne_empty hp
  have hjs2 : hasSuffixL mt ['/', 'j', 's', 'o', 'n'] = false := hjs
  have h1 : adaptByContentType g ct body =
      ⟨none, none,
       some (.plain ("adapting config using " ++ String.mk (mt.drop (i + 1)) ++
         " adapter: " ++ e))⟩ := by
    unfold adaptByContentType
    rw [if_neg hne, hp]
    simp [hjs2, hi, ha, hr]
  refine ⟨h1, ?_⟩
  unfold handleAdapt
  simp [hne, h1, AdaptError.message]

/-- C6 witness. -/
theorem adapter_failure_wrapped_400_w :
    adaptByContentType (yamlOnly ⟨fun _ => (none, none, some "boom")⟩)
      "application/yaml" [] =
      ⟨none, none, some (.plain "adapting config using yaml adapter: boom")⟩ ∧
    handleAdapt (yamlOnly ⟨fun _ => (none, none, some "boom")⟩) (fun _ => .ok [])
      ⟨"POST", "application/yaml", .ok []⟩ =
      .failure 400 "adapting config using yaml adapter: boom" :=
  adapter_failure_wrapped_400 (yamlOnly ⟨fun _ => (none, none, some "boom")⟩)
    (fun _ => .ok []) "application/yaml" [] "application/yaml".toList 11
    ⟨fun _ => (none, none, some "boom")⟩ none none "boom"
    rfl (by decide) (by decide) rfl rfl

/-- C7: any request whose method is not POST fails with status 405 and
the message "method not allowed", whatever the registry, the body-read
outcome, and the content-type header — nothing is dispatched or
written. -/
theorem non_post_method_405 (g : String → Option Adapter)
    (marshal : List Warning → Except String Bytes)
    (r : Request) (h : r.method ≠ "POST") :
    handleAdapt g marshal r = .failure 405 "method not allowed" := by
  unfold handleAdapt
  rw [if_pos h]

/-- C7 witness: a GET request whose body read would even fail is
rejected with 405 before anything else happens. -/
theorem non_post_method_405_w :
    handleAdapt (fun _ => none) (fun _ => .ok [])
      ⟨"GET", "application/json", .error "closed"⟩ =
      .failure 405 "method not allowed" :=
  non_post_method_405 (fun _ => none) (fun _ => .ok [])
    ⟨"GET", "application/json", .error "closed"⟩ (by decide)

/-- C8: when the dispatcher succeeds with a non-empty warning list and
serializing the warnings fails, the request still succeeds: the JSON
content type is set, the dispatcher's result bytes are written, and the
serialization error is only logged. -/
theorem warning_marshal_failure_ignored (g : String → Option Adapter)
    (marshal : List Warning → Except String Bytes)
    (ct : String) (body : Bytes) (res : Option Bytes) (ws : List Warning) (me : String)
    (hct : ct ≠ "")
    (hA : adaptByContentType g ct body = ⟨res, some ws, none⟩)
    (hw : 0 < ws.length)
    (hm : marshal ws = .error me) :
    handleAdapt g marshal ⟨"POST", ct, .ok body⟩ =
      .success "application/json" res (some me) := by
  unfold handleAdapt
  simp [hct, hA, hw, hm]

/-- C8 witness. -/
theorem warning_marshal_failure_ignored_w :
    handleAdapt (yamlOnly ⟨fun b => (some b, some [⟨"", 0, "", "deprecated"⟩], none)⟩)
      (fun _ => .error "marshal failed") ⟨"POST", "application/yaml", .ok [7]⟩ =
      .success "application/json" (some [7]) (some "marshal failed") :=
  warning_marshal_failure_ignored
    (yamlOnly ⟨fun b => (some b, some [⟨"", 0, "", "deprecated"⟩], none)⟩)
    (fun _ => .error "marshal failed") "application/yaml" [7]
    (some [7]) [⟨"", 0, "", "deprecated"⟩] "marshal failed"
    (by decide) rfl (by decide) rfl

/-- C9 (implicit): whenever `adaptByContentType` returns a non-nil
error, both the returned byte slice and the returned warning list are
nil — every error return in the function is `nil, nil, err`. -/
theorem error_implies_nil_result (g : String → Option Adapter)
    (ct : String) (body : Bytes)
    (h : (adaptByContentType g ct body).err ≠ none) :
    (adaptByContentType g ct body).result = none ∧
    (adaptByContentType g ct body).warnings = none := by
  revert h
  unfold adaptByContentType
  dsimp only
  repeat' split
  all_goals simp

/-- C9 witness. -/
theorem error_implies_nil_result_w :
    (adaptByContentType (fun _ => none) "json" []).result = none ∧
    (adaptByContentType (fun _ => none) "json" []).warnings = none :=
  error_implies_nil_result (fun _ => none) "json" [] (by decide)

/-- C10 (implicit): `mime.ParseMediaType` lower-cases the media type
before any check, so `adaptByContentType` is case-insensitive in the
media-type portion: `Application/JSON` passes through exactly like
`application/json`, `Application/YAML` behaves exactly like
`application/yaml`, and the registry key it extracts is the lower-cased
subtype `yaml` — whose adapter is the one invoked. -/
theorem media_type_case_insensitive (g : String → Option Adapter)
    (body : Bytes) (a : Adapter) (hy : g "yaml" = some a) :
    adaptByContentType g "Application/JSON" body = ⟨some body, none, none⟩ ∧
    adaptByContentType g "Application/JSON" body =
      adaptByContentType g "application/json" body ∧
    adaptByContentType g "Application/YAML" body =
      adaptByContentType g "application/yaml" body ∧
    adaptByContentType g "Application/YAML" body =
      (match a.adapt body with
       | (_, _, some e) =>
         ⟨none, none, some (.plain ("adapting config using yaml adapter: " ++ e))⟩
       | (result, warnings, none) => ⟨result, warnings, none⟩) := by
  refine ⟨rfl, rfl, rfl, ?_⟩
  have h4 : adaptByContentType g "Application/YAML" body =
      (match g "yaml" with
       | none =>
         ⟨none, none,
          some (.plain ("unrecognized config adapter " ++ squote ++ "yaml" ++ squote))⟩
       | some cfgAdapter =>
         match cfgAdapter.adapt body with
         | (_, _, some e) =>
           ⟨none, none, some (.plain ("adapting config using yaml adapter: " ++ e))⟩
         | (result, warnings, none) => ⟨result, warnings, none⟩) := rfl
  rw [h4, hy]

/-- C10 witness. -/
theorem media_type_case_insensitive_w :
    adaptByContentType (yamlOnly ⟨fun b => (some b, none, none)⟩)
      "Application/JSON" [7] = ⟨some [7], none, none⟩ ∧
    adaptByContentType (yamlOnly ⟨fun b => (some b, none, none)⟩)
      "Application/JSON" [7] =
      adaptByContentType (yamlOnly ⟨fun b => (some b, none, none)⟩)
        "application/json" [7] ∧
    adaptByContentType (yamlOnly ⟨fun b => (some b, none, none)⟩)
      "Application/YAML" [7] =
      adaptByContentType (yamlOnly ⟨fun b => (some b, none, none)⟩)
        "application/yaml" [7] ∧
    adaptByContentType (yamlOnly ⟨fun b => (some b, none, none)⟩)
      "Application/YAML" [7] = ⟨some [7], none, none⟩ :=
  media_type_case_insensitive (yamlOnly ⟨fun b => (some b, none, none)⟩) [7]
    ⟨fun b => (some b, none, none)⟩ rfl

end CaddyAdapt
